import Mathlib

/-!
Verification development for the smtp-server repository.

The repository contains several variants of the same fastify email API:

* `src/server.js` — Gmail variant, no queue: each endpoint calls
  `transporter.sendMail` directly.
* `src/unnamed/part_002` (and the identical queue in `src/unnamed/part_003`)
  — the promise-handle queue: `queueEmail` pushes a job carrying `resolve` /
  `reject` callbacks; `processEmailQueue` drains it with a millisecond rate
  gate (`SMTP_RATE_LIMIT` ms between emails), requeues at the front on a
  rate-limited error (SMTP 421 or a message containing 421 / rate) after a
  `RETRY_DELAY` pause, and rejects immediately on any other error.
* the `server.js` embedded in `src/unnamed/part_001` (lines 441-488) — a
  handle-less queue whose drain loop computes `minInterval = 60000 /
  RATE_LIMIT`, and on any send failure increments `retries` and pushes the
  job to the back while `retries < 3`, dropping it silently at the bound.

This file gives a shallow embedding of the queue state machines and of the
HTTP handler bodies, and proves or refutes the specified properties.
-/

namespace SmtpServer

/-- Decides whether `pat` occurs at the head of `l` (character-wise equality),
the helper for the JS `String.prototype.includes` model. -/
def matchesAt : List Char → List Char → Bool
  | [], _ => true
  | _ :: _, [] => false
  | a :: as, b :: bs => a == b && matchesAt as bs

/-- Decides whether `pat` occurs contiguously anywhere in `l`. -/
def hasNeedle (pat : List Char) : List Char → Bool
  | [] => pat.isEmpty
  | c :: cs => matchesAt pat (c :: cs) || hasNeedle pat cs

/-- Model of JS `s.includes(pat)` for strings. -/
def strIncludes (s pat : String) : Bool :=
  hasNeedle pat.toList s.toList

/-- A nodemailer send error as observed by the drain loop: the optional SMTP
`responseCode` and the error `message`. -/
structure SendError where
  responseCode : Option Nat
  message : String
deriving Repr, DecidableEq

/-- Needle 421 used by the rate-limit classification in
`processEmailQueue` (part_002 line 78). -/
def needle421 : String := "421"

/-- Needle rate used by the rate-limit classification in
`processEmailQueue` (part_002 line 79). -/
def needleRate : String := "rate"

/-- The rate-limit classification of part_002 lines 76-80:
`error.responseCode === 421 || error.message.includes("421") ||
error.message.includes("rate")`. -/
def isRateLimitError (e : SendError) : Bool :=
  e.responseCode == some 421 || strIncludes e.message needle421
    || strIncludes e.message needleRate

/-- The mailOptions object built by the `/send-email` handler
(part_002 lines 151-157). -/
structure MailOptions where
  fromAddr : String
  toAddr : String
  subject : String
  text : Option String
  html : Option String
deriving Repr, DecidableEq

/-- An email job from `queueEmail` (part_002 lines 105-111); the promise
callbacks are represented by the job identity (settlements are recorded
against `id` in the models below). -/
structure EmailJob where
  id : Nat
  mailOptions : MailOptions
  timestamp : Nat
deriving Repr, DecidableEq

/-- Queue configuration of part_002: `SMTP_RATE_LIMIT` (milliseconds between
emails, line 13) and the retry delay used after a rate-limited failure
(line 85). -/
structure QueueConfig where
  rateLimit : Nat
  retryDelay : Nat
deriving Repr, DecidableEq

/-- Outcome of one `transporter.sendMail` call, together with the wall-clock
duration the call took. -/
inductive SendResult where
  | ok (messageId : String) (duration : Nat)
  | err (e : SendError) (duration : Nat)
deriving Repr, DecidableEq

/-- A settlement of a job's promise handle: `resolve` with the message id or
`reject` with the failure details (part_002 lines 67-71 and 90-94). -/
inductive Settlement where
  | resolved (id : Nat) (messageId : String)
  | rejected (id : Nat) (details : String) (code : Option Nat)
deriving Repr, DecidableEq

/-- State carried across iterations of the part_002 drain loop: the queue,
`lastEmailTime`, and a virtual clock (the current `Date.now()`). -/
structure DrainState where
  emailQueue : List EmailJob
  lastEmailTime : Nat
  clock : Nat
deriving Repr, DecidableEq

/-- Result of one iteration of the part_002 `while` body: the successor
state, the time at which `transporter.sendMail` was invoked, and the
settlement the iteration performed (none when the job was requeued). -/
structure IterResult where
  state : DrainState
  invocation : Nat
  settlement : Option Settlement
deriving Repr, DecidableEq

/-- The rate-limit wait of part_002 lines 52-60: the time at which the loop
reaches the send, starting from `clock`, having waited
`rateLimit - (clock - lastEmailTime)` when that elapsed time is below the
interval. -/
def gateTime (rateLimit lastEmailTime clock : Nat) : Nat :=
  if clock - lastEmailTime < rateLimit then
    clock + (rateLimit - (clock - lastEmailTime))
  else
    clock

/-- One iteration of the part_002 / part_003 drain loop (lines 50-96): pop
the front job, wait out the rate gate (`SMTP_RATE_LIMIT` minus the time
since `lastEmailTime`), invoke the transport; on success set
`lastEmailTime` and resolve; on a rate-limited error unshift the job and
sleep `RETRY_DELAY`; on any other error reject. Returns `none` when the
queue is empty (the `while` condition fails). -/
def drainStep (cfg : QueueConfig) (st : DrainState) (res : SendResult) :
    Option IterResult :=
  match st.emailQueue with
  | [] => none
  | job :: rest =>
    let inv := gateTime cfg.rateLimit st.lastEmailTime st.clock
    match res with
    | .ok messageId dur =>
      let done := inv + dur
      some { state := { emailQueue := rest, lastEmailTime := done, clock := done },
             invocation := inv,
             settlement := some (.resolved job.id messageId) }
    | .err e dur =>
      let done := inv + dur
      if isRateLimitError e then
        some { state := { emailQueue := job :: rest,
                          lastEmailTime := st.lastEmailTime,
                          clock := done + cfg.retryDelay },
               invocation := inv,
               settlement := none }
      else
        some { state := { emailQueue := rest,
                          lastEmailTime := st.lastEmailTime,
                          clock := done },
               invocation := inv,
               settlement := some (.rejected job.id e.message e.responseCode) }

/-- Run the part_002 drain loop for as many iterations as the transport
behavior list provides (or until the queue empties), collecting the
iteration results in order. -/
def drainRun (cfg : QueueConfig) (st : DrainState) :
    List SendResult → DrainState × List IterResult
  | [] => (st, [])
  | r :: rs =>
    match drainStep cfg st r with
    | none => (st, [])
    | some it =>
      let tail := drainRun cfg it.state rs
      (tail.1, it :: tail.2)

/-- Iterate the part_002 drain loop `n` times against a transport that
always returns the same error. -/
def drainRepeat (cfg : QueueConfig) (e : SendError) (dur : Nat) :
    Nat → DrainState → DrainState
  | 0, st => st
  | n + 1, st =>
    match drainStep cfg st (.err e dur) with
    | none => st
    | some it => drainRepeat cfg e dur n it.state

/-- An email job of the server embedded in part_001 (lines 514-524): plain
data with a mutable `retries` counter and no promise handle (the endpoint
responds success before the send happens). -/
structure EmailData where
  id : String
  toAddr : String
  subject : Option String
  text : Option String
  html : Option String
  fromAddr : Option String
  messageId : String
  retries : Nat
  timestamp : Nat
deriving Repr, DecidableEq

/-- State carried across iterations of the part_001 embedded drain loop. -/
structure EmbedState where
  emailQueue : List EmailData
  lastEmailTime : Nat
  clock : Nat
deriving Repr, DecidableEq

/-- One iteration of the part_001 embedded drain loop (lines 447-484): pop
the front job; wait out `minInterval = 60000 / RATE_LIMIT` since
`lastEmailTime`; send; on success set `lastEmailTime`; on any failure, if
`retries < 3` increment `retries` and push the job to the back, otherwise
drop it; finally sleep `RETRY_DELAY` unconditionally. Returns the successor
state and the invocation time, or `none` when the queue is empty. -/
def embedStep (rateLimitPerMin retryDelay : Nat) (st : EmbedState)
    (res : SendResult) : Option (EmbedState × Nat) :=
  match st.emailQueue with
  | [] => none
  | emailData :: rest =>
    let inv := gateTime (60000 / rateLimitPerMin) st.lastEmailTime st.clock
    match res with
    | .ok _ dur =>
      let done := inv + dur
      some ({ emailQueue := rest, lastEmailTime := done,
              clock := done + retryDelay }, inv)
    | .err _ dur =>
      let done := inv + dur
      let q :=
        if emailData.retries < 3 then
          rest ++ [{ emailData with retries := emailData.retries + 1 }]
        else
          rest
      some ({ emailQueue := q, lastEmailTime := st.lastEmailTime,
              clock := done + retryDelay }, inv)

/-! ### Interleaving model of part_002's queue, drain loop and handlers

The drain loop of part_002 suspends at its `await` points, so enqueues and
status queries interleave with it. The model below is a small-step system:
`isProcessingQueue` is the busy flag, `activeLoops` counts drain-loop
instances that have passed the guard and not yet returned, `inFlight` holds
the job between the `shift()` at line 51 and the settlement, and `settled`
records every resolve/reject performed, in order. Job ids (`Date.now() +
Math.random()` in the source, an opaque unique token) are modelled by a
fresh-id counter. -/

/-- Process-wide mutable state of part_002 together with the bookkeeping the
proofs need (`activeLoops`, `inFlight`, `settled`, `nextId`). -/
structure SysState where
  emailQueue : List EmailJob
  isProcessingQueue : Bool
  activeLoops : Nat
  inFlight : Option EmailJob
  settled : List (Nat × Bool)
  nextId : Nat
  lastEmailTime : Nat
deriving Repr, DecidableEq

/-- Initial state of the module: empty queue, idle, nothing settled. -/
def initState : SysState :=
  { emailQueue := [], isProcessingQueue := false, activeLoops := 0,
    inFlight := none, settled := [], nextId := 0, lastEmailTime := 0 }

/-- The synchronous prologue of `processEmailQueue` (part_002 lines 43-47):
return immediately when already processing or the queue is empty; otherwise
set the busy flag, which starts a new drain-loop instance. -/
def processTrigger (s : SysState) : SysState :=
  if s.isProcessingQueue || s.emailQueue.isEmpty then s
  else { s with isProcessingQueue := true, activeLoops := s.activeLoops + 1 }

/-- The `queueEmail` function (part_002 lines 103-121): push a fresh job to
the back and, when the busy flag is clear, invoke `processEmailQueue`. -/
def queueEmail (m : MailOptions) (t : Nat) (s : SysState) : SysState :=
  let job : EmailJob := { id := s.nextId, mailOptions := m, timestamp := t }
  let s' := { s with emailQueue := s.emailQueue ++ [job],
                     nextId := s.nextId + 1 }
  if s'.isProcessingQueue then s' else processTrigger s'

/-- Events of the interleaving model: an enqueue, the dequeue at the top of
a loop iteration, the three send outcomes, and the loop epilogue that
clears the busy flag once the queue is empty. -/
inductive Ev where
  | enq (m : MailOptions) (t : Nat)
  | dequeue
  | sendOk (t : Nat)
  | sendRateErr (e : SendError)
  | sendPermErr (e : SendError)
  | finish
deriving Repr, DecidableEq

/-- Small-step transition function; `none` means the event is not enabled in
the given state. `dequeue` is the `shift()` of line 51; `sendOk` resolves
and records `lastEmailTime`; `sendRateErr` unshifts the job (lines 82-87);
`sendPermErr` rejects (lines 90-94); `finish` is lines 96-99. -/
def step : Ev → SysState → Option SysState
  | .enq m t, s => some (queueEmail m t s)
  | .dequeue, s =>
    match s.inFlight, s.emailQueue with
    | none, job :: rest =>
      if s.isProcessingQueue then
        some { s with emailQueue := rest, inFlight := some job }
      else none
    | _, _ => none
  | .sendOk t, s =>
    match s.inFlight with
    | some job =>
      some { s with inFlight := none, lastEmailTime := t,
                    settled := s.settled ++ [(job.id, true)] }
    | none => none
  | .sendRateErr e, s =>
    match s.inFlight with
    | some job =>
      if isRateLimitError e then
        some { s with inFlight := none, emailQueue := job :: s.emailQueue }
      else none
    | none => none
  | .sendPermErr e, s =>
    match s.inFlight with
    | some job =>
      if isRateLimitError e then none
      else
        some { s with inFlight := none,
                      settled := s.settled ++ [(job.id, false)] }
    | none => none
  | .finish, s =>
    if s.isProcessingQueue && s.emailQueue.isEmpty && s.inFlight.isNone then
      some { s with isProcessingQueue := false,
                    activeLoops := s.activeLoops - 1 }
    else none

/-- Run a list of events from a state, failing when any event is not
enabled. -/
def run (s : SysState) : List Ev → Option SysState
  | [] => some s
  | e :: es =>
    match step e s with
    | none => none
    | some s' => run s' es

/-- The ids mentioned by an optional in-flight job, as a list. -/
def optIds : Option EmailJob → List Nat
  | some job => [job.id]
  | none => []

/-- The ids mentioned by the in-flight slot, as a list. -/
def inFlightIds (s : SysState) : List Nat :=
  optIds s.inFlight

/-- Every job id the state mentions: queued, in flight, or settled. -/
def jobIds (s : SysState) : List Nat :=
  s.emailQueue.map (fun j => j.id)
    ++ (inFlightIds s ++ s.settled.map (fun p => p.1))

/-- The inductive invariant of the interleaving model: at most one loop
instance, the busy flag mirrors it, a job can be in flight only while
processing, all mentioned ids are distinct, and all are below the fresh-id
counter. -/
def Inv (s : SysState) : Prop :=
  s.activeLoops ≤ 1 ∧
  (s.isProcessingQueue = true ↔ s.activeLoops = 1) ∧
  (s.inFlight.isSome = true → s.isProcessingQueue = true) ∧
  (jobIds s).Nodup ∧
  (∀ i ∈ jobIds s, i < s.nextId)

/-- The `/queue-status` response (part_002 lines 129-136). -/
structure QueueStatus where
  queueLength : Nat
  isProcessing : Bool
  lastEmailTime : Nat
  rateLimitMs : Nat
deriving Repr, DecidableEq

/-- The `/queue-status` handler (part_002 lines 129-136): report the queue
length, the busy flag, `lastEmailTime` and the configured rate limit. -/
def queueStatusHandler (rateLimitMs : Nat) (s : SysState) : QueueStatus :=
  { queueLength := s.emailQueue.length,
    isProcessing := s.isProcessingQueue,
    lastEmailTime := s.lastEmailTime,
    rateLimitMs := rateLimitMs }

/-! ### HTTP handler bodies

The `/send-email` and `/send-bulk-email` handlers are embedded as pure
functions of the request body and of the dispatch outcome. JS truthiness of
the body fields is modelled explicitly (absent and the empty string are
falsy; an array is truthy even when empty). -/

/-- A JSON value as the validation code sees it: absent, a string, or an
array of strings (the `to` field may be an array, part_002 line 153). -/
inductive JSVal where
  | absent
  | str (s : String)
  | arr (l : List String)
deriving Repr, DecidableEq

/-- JS truthiness: `undefined` and the empty string are falsy; any array is
an object and hence truthy. -/
def JSVal.truthy : JSVal → Bool
  | .absent => false
  | .str s => !(s == "")
  | .arr _ => true

/-- Separator JS uses when coercing an array to a string. -/
def commaSep : String := ","

/-- String content of a field, for fields the code reads as strings. -/
def JSVal.asString : JSVal → String
  | .absent => ""
  | .str s => s
  | .arr l => String.intercalate commaSep l

/-- Optional string content of a field, for the optional mail fields. -/
def JSVal.asOptString : JSVal → Option String
  | .str s => some s
  | _ => none

/-- Separator used by `to.join(", ")` in part_002 line 153. -/
def joinSep : String := ", "

/-- The `to` normalization of part_002 line 153:
`Array.isArray(to) ? to.join(", ") : to`. -/
def joinRecipients : JSVal → String
  | .arr l => String.intercalate joinSep l
  | .str s => s
  | .absent => ""

/-- Body of a `POST /send-email` request. -/
structure SendBody where
  toField : JSVal
  subject : JSVal
  text : JSVal
  html : JSVal
  fromField : JSVal
deriving Repr, DecidableEq

/-- The mailOptions construction of part_002 lines 151-157, with
`defaultFrom` standing for `process.env.SMTP_FROM || process.env.SMTP_USER`. -/
def buildMailOptions (defaultFrom : String) (b : SendBody) : MailOptions :=
  { fromAddr := if b.fromField.truthy then b.fromField.asString else defaultFrom,
    toAddr := joinRecipients b.toField,
    subject := b.subject.asString,
    text := b.text.asOptString,
    html := b.html.asOptString }

/-- Outcome of awaiting `queueEmail` (part_002) or `transporter.sendMail`
(server.js): fulfilled with a message id, or rejected with details. -/
inductive DispatchOutcome where
  | ok (messageId : String)
  | fail (details : String) (code : Option Nat)
deriving Repr, DecidableEq

/-- What the `/send-email` handler returned: the HTTP status and the mail
options it dispatched, `none` when validation stopped it before any
send or enqueue. -/
structure HandlerResult where
  status : Nat
  dispatched : Option MailOptions
deriving Repr, DecidableEq

/-- The `POST /send-email` handler body (part_002 lines 139-170, identical
validation in server.js lines 34-68): reply 400 when `to`, `subject`, or
both of `text` and `html` are falsy, without dispatching; otherwise
dispatch and reply 200 on fulfillment, 500 on rejection. -/
def sendEmailHandler (defaultFrom : String) (b : SendBody)
    (dispatch : MailOptions → DispatchOutcome) : HandlerResult :=
  if !b.toField.truthy || !b.subject.truthy
      || (!b.text.truthy && !b.html.truthy) then
    { status := 400, dispatched := none }
  else
    let m := buildMailOptions defaultFrom b
    match dispatch m with
    | .ok _ => { status := 200, dispatched := some m }
    | .fail _ _ => { status := 500, dispatched := some m }

/-- One per-recipient entry of the bulk response (part_002 lines 205-218). -/
structure BulkEntry where
  index : Nat
  recipient : String
  success : Bool
  messageId : Option String
  error : Option String
deriving Repr, DecidableEq

/-- The per-recipient closure of the bulk handler (part_002 lines 194-219):
send to one recipient and record either the message id or the error; the
closure catches every error, so its promise always fulfills. -/
def bulkOutcome (send : Nat → String → DispatchOutcome) (p : Nat × String) :
    BulkEntry :=
  match send p.1 p.2 with
  | .ok mid =>
    { index := p.1, recipient := p.2, success := true,
      messageId := some mid, error := none }
  | .fail d _ =>
    { index := p.1, recipient := p.2, success := false,
      messageId := none, error := some d }

/-- The `/send-bulk-email` success response (part_002 lines 240-246). -/
structure BulkResponse where
  totalSent : Nat
  totalErrors : Nat
  results : List BulkEntry
  errors : List BulkEntry
deriving Repr, DecidableEq

/-- The `POST /send-bulk-email` handler body (part_002 lines 173-254,
identical in server.js lines 72-153): 400 when `recipients` is missing,
not an array, or empty, or when `subject` / both bodies are falsy;
otherwise send per recipient concurrently — directly through the
transport, never touching the queue — and partition the settled outcomes
into `results` and `errors`. -/
def sendBulkHandler (recipients : Option (List String))
    (subject text html : JSVal)
    (send : Nat → String → DispatchOutcome) : Except Nat BulkResponse :=
  match recipients with
  | none => .error 400
  | some rs =>
    if rs.isEmpty then .error 400
    else if !subject.truthy || (!text.truthy && !html.truthy) then .error 400
    else
      let outcomes := rs.enum.map (bulkOutcome send)
      let results := outcomes.filter (fun o => o.success)
      let errors := outcomes.filter (fun o => !o.success)
      .ok { totalSent := results.length, totalErrors := errors.length,
            results := results, errors := errors }

/-! ### Concrete fixtures used by witnesses and counterexamples -/

/-- A sample mailOptions value. -/
def mailEx : MailOptions :=
  { fromAddr := "noreply@example.com", toAddr := "user@example.com",
    subject := "hi", text := some ("hello"), html := none }

/-- A sample queued job. -/
def jobEx : EmailJob := { id := 1, mailOptions := mailEx, timestamp := 0 }

/-- A second sample queued job. -/
def jobEx2 : EmailJob := { id := 2, mailOptions := mailEx, timestamp := 0 }

/-- A rate-limited transport error (SMTP 421). -/
def err421Ex : SendError := { responseCode := some 421, message := "service busy" }

/-- A permanent transport error: no 421 code and a message mentioning
neither 421 nor rate. -/
def permErrEx : SendError := { responseCode := none, message := "boom" }

/-- A sample queue configuration: 1000 ms between emails, 30000 ms retry
delay (the part_002 defaults). -/
def cfgEx : QueueConfig := { rateLimit := 1000, retryDelay := 30000 }

/-- Drain state with one queued job and no send performed yet. -/
def stRateEx : DrainState := { emailQueue := [jobEx], lastEmailTime := 0, clock := 0 }

/-- Drain state with one queued job, clock far past the rate gate. -/
def stPermEx : DrainState := { emailQueue := [jobEx], lastEmailTime := 0, clock := 5000 }

/-! ### Helper lemmas about the drain loop -/

/-- The gate never lets a send happen before `lastEmailTime + rateLimit`,
as long as the clock is not behind `lastEmailTime`. -/
theorem gateTime_lb (rateLimit lastEmailTime clock : Nat)
    (h : lastEmailTime ≤ clock) :
    lastEmailTime + rateLimit ≤ gateTime rateLimit lastEmailTime clock := by
  unfold gateTime
  split <;> omega

/-- Invocation lower bound for the part_001 embedded loop, whose interval is
`60000 / RATE_LIMIT`. -/
theorem embedStep_invocation_lb (rl rd : Nat) (est : EmbedState)
    (res : SendResult) (out : EmbedState × Nat)
    (hcl : est.lastEmailTime ≤ est.clock)
    (h : embedStep rl rd est res = some out) :
    est.lastEmailTime + 60000 / rl ≤ out.2 := by
  rcases hq : est.emailQueue with _ | ⟨d, rest⟩
  · simp [embedStep, hq] at h
  · have hg := gateTime_lb (60000 / rl) est.lastEmailTime est.clock hcl
    rcases res with ⟨m, dur⟩ | ⟨e, dur⟩ <;>
      simp only [embedStep, hq, Option.some.injEq] at h <;>
      rw [← h] <;> exact hg

/-- A drain iteration on a non-empty queue with a rate-limited error
requeues the job at the front, settles nothing, keeps `lastEmailTime`, and
advances the clock by the retry delay. -/
theorem drainStep_rate_err (cfg : QueueConfig) (st : DrainState)
    (job : EmailJob) (rest : List EmailJob) (e : SendError) (dur : Nat)
    (hq : st.emailQueue = job :: rest) (he : isRateLimitError e = true) :
    drainStep cfg st (SendResult.err e dur) =
      some { state := { emailQueue := job :: rest,
                        lastEmailTime := st.lastEmailTime,
                        clock := gateTime cfg.rateLimit st.lastEmailTime st.clock
                                  + dur + cfg.retryDelay },
             invocation := gateTime cfg.rateLimit st.lastEmailTime st.clock,
             settlement := none } := by
  simp [drainStep, hq, he]

/-- A drain iteration on a non-empty queue with a permanent error rejects
the popped job immediately and does not requeue it. -/
theorem drainStep_perm_err (cfg : QueueConfig) (st : DrainState)
    (job : EmailJob) (rest : List EmailJob) (e : SendError) (dur : Nat)
    (hq : st.emailQueue = job :: rest) (he : isRateLimitError e = false) :
    drainStep cfg st (SendResult.err e dur) =
      some { state := { emailQueue := rest,
                        lastEmailTime := st.lastEmailTime,
                        clock := gateTime cfg.rateLimit st.lastEmailTime st.clock + dur },
             invocation := gateTime cfg.rateLimit st.lastEmailTime st.clock,
             settlement := some (Settlement.rejected job.id e.message e.responseCode) } := by
  simp [drainStep, hq, he]

/-- The invocation time of any drain iteration is at least
`lastEmailTime + rateLimit`. -/
theorem drainStep_invocation_lb (cfg : QueueConfig) (st : DrainState)
    (r : SendResult) (it : IterResult)
    (hcl : st.lastEmailTime ≤ st.clock)
    (h : drainStep cfg st r = some it) :
    st.lastEmailTime + cfg.rateLimit ≤ it.invocation := by
  rcases hq : st.emailQueue with _ | ⟨job, rest⟩
  · simp [drainStep, hq] at h
  · have hg := gateTime_lb cfg.rateLimit st.lastEmailTime st.clock hcl
    rcases r with ⟨m, dur⟩ | ⟨e, dur⟩
    · simp only [drainStep, hq, Option.some.injEq] at h
      rw [← h]
      exact hg
    · rcases hrl : isRateLimitError e with _ | _
      · rw [drainStep_perm_err cfg st job rest e dur hq hrl] at h
        obtain rfl := Option.some.inj h
        exact hg
      · rw [drainStep_rate_err cfg st job rest e dur hq hrl] at h
        obtain rfl := Option.some.inj h
        exact hg

/-- Iterating the drain loop against a persistently rate-limited transport
leaves the queue exactly as it was, for any number of iterations. -/
theorem drainRepeat_queue_eq (cfg : QueueConfig) (e : SendError) (dur : Nat)
    (he : isRateLimitError e = true) :
    ∀ (n : Nat) (st : DrainState),
      (drainRepeat cfg e dur n st).emailQueue = st.emailQueue := by
  intro n
  induction n with
  | zero => intro st; rfl
  | succ n ih =>
    intro st
    rcases hq : st.emailQueue with _ | ⟨job, rest⟩
    · simp [drainRepeat, drainStep, hq]
    · rw [drainRepeat, drainStep_rate_err cfg st job rest e dur hq he]
      rw [ih]

/-- Against a persistently rate-limited transport, no iteration of the
drain loop ever settles a job. -/
theorem drainRun_rate_settlements (cfg : QueueConfig) (e : SendError)
    (dur : Nat) (he : isRateLimitError e = true) :
    ∀ (n : Nat) (st : DrainState) (it : IterResult),
      it ∈ (drainRun cfg st (List.replicate n (SendResult.err e dur))).2 →
        it.settlement = none := by
  intro n
  induction n with
  | zero => intro st it hm; simp [drainRun] at hm
  | succ n ih =>
    intro st it hm
    rcases hq : st.emailQueue with _ | ⟨job, rest⟩
    · simp [List.replicate, drainRun, drainStep, hq] at hm
    · rw [List.replicate, drainRun,
        drainStep_rate_err cfg st job rest e dur hq he] at hm
      simp only [List.mem_cons] at hm
      rcases hm with rfl | hm
      · rfl
      · exact ih _ it hm

/-! ### Further fixtures for witnesses -/

/-- A sample job of the part_001 embedded variant, with no retries yet. -/
def dataEx : EmailData :=
  { id := "1700000000000.ab12", toAddr := "user@example.com",
    subject := some ("hi"), text := some ("hello"), html := none,
    fromAddr := none, messageId := "<m1@example.com>", retries := 0,
    timestamp := 0 }

/-- Embedded-variant state with one queued job and no send yet. -/
def estEx : EmbedState := { emailQueue := [dataEx], lastEmailTime := 0, clock := 0 }

/-- Sample message ids. -/
def mId1 : String := "msg-1"

/-- A second sample message id. -/
def mId2 : String := "msg-2"

/-- Drain state with two queued jobs and no send performed yet. -/
def stOkEx : DrainState :=
  { emailQueue := [jobEx, jobEx2], lastEmailTime := 0, clock := 0 }

/-- Result of the first iteration on `stOkEx` when the send succeeds after
5 ms: the gate waits to 1000, the send completes at 1005. -/
def itW1 : IterResult :=
  { state := { emailQueue := [jobEx2], lastEmailTime := 1005, clock := 1005 },
    invocation := 1000,
    settlement := some (Settlement.resolved jobEx.id mId1) }

/-- Result of the following iteration: the gate holds the send until 2005. -/
def itW2 : IterResult :=
  { state := { emailQueue := [], lastEmailTime := 2005, clock := 2005 },
    invocation := 2005,
    settlement := some (Settlement.resolved jobEx2.id mId2) }

/-- Embedded-variant iteration output on `estEx` with rate limit 100/min
(interval 600 ms) and retry delay 1000 ms, send succeeding instantly. -/
def outW : EmbedState × Nat :=
  ({ emailQueue := [], lastEmailTime := 600, clock := 1600 }, 600)

/-- Iteration result of a permanent failure on `stPermEx`: immediate
rejection, job gone from the queue. -/
def itPermEx : IterResult :=
  { state := { emailQueue := [], lastEmailTime := 0, clock := 5000 },
    invocation := 5000,
    settlement := some (Settlement.rejected jobEx.id permErrEx.message
      permErrEx.responseCode) }

/-- Iteration result of an instant successful send on `stPermEx`. -/
def itOkEx : IterResult :=
  { state := { emailQueue := [], lastEmailTime := 5000, clock := 5000 },
    invocation := 5000,
    settlement := some (Settlement.resolved jobEx.id mId1) }

/-! ### Claim theorems: drain-loop behavior -/

/-- C1 (counterexample): in part_002's drain loop, a job whose very first
send attempt fails with a permanent (non-rate-limited) error is rejected
immediately and is not pushed to the back of the queue, contradicting the
claim that under the retry bound of 3 the job would be requeued and only
at the bound rejected. -/
theorem perm_failure_claim_counterexample :
    drainStep cfgEx stPermEx (SendResult.err permErrEx 0) =
      some { state := { emailQueue := [], lastEmailTime := 0, clock := 5000 },
             invocation := 5000,
             settlement := some (Settlement.rejected jobEx.id permErrEx.message
               permErrEx.responseCode) } := by
  decide

/-- C1 (amended): in the promise-handle queue (part_002 / part_003) a
non-rate-limited failure rejects the handle immediately with the failure
detail and drops the job from the queue — there is no retry counter; the
increment-and-requeue-at-the-back logic exists only in the part_001
embedded variant, where a failure with `retries < 3` increments the count
and appends the job, and at the bound the job is dropped without any
rejection. -/
theorem perm_failure_rejects_and_embed_retries
    (cfg : QueueConfig) (st : DrainState) (job : EmailJob)
    (rest : List EmailJob) (e : SendError) (dur : Nat)
    (rl rd : Nat) (est : EmbedState) (d : EmailData)
    (erest : List EmailData) (e2 : SendError) (dur2 : Nat)
    (hq : st.emailQueue = job :: rest) (he : isRateLimitError e = false)
    (hq2 : est.emailQueue = d :: erest) :
    (∃ it, drainStep cfg st (SendResult.err e dur) = some it ∧
        it.settlement = some (Settlement.rejected job.id e.message e.responseCode) ∧
        it.state.emailQueue = rest) ∧
    (∃ out, embedStep rl rd est (SendResult.err e2 dur2) = some out ∧
        out.1.emailQueue =
          (if d.retries < 3 then erest ++ [{ d with retries := d.retries + 1 }]
           else erest)) := by
  constructor
  · exact ⟨_, drainStep_perm_err cfg st job rest e dur hq he, rfl, rfl⟩
  · simp only [embedStep, hq2]
    exact ⟨_, rfl, rfl⟩

/-- The amended C1 at a concrete input: a fresh job rejected immediately in
part_002; a fresh embedded job requeued at the back with its counter
incremented. -/
theorem perm_failure_rejects_and_embed_retries_witness :
    (∃ it, drainStep cfgEx stPermEx (SendResult.err permErrEx 0) = some it ∧
        it.settlement = some (Settlement.rejected jobEx.id permErrEx.message
          permErrEx.responseCode) ∧
        it.state.emailQueue = []) ∧
    (∃ out, embedStep 100 1000 estEx (SendResult.err permErrEx 0) = some out ∧
        out.1.emailQueue =
          (if dataEx.retries < 3 then [] ++ [{ dataEx with retries := dataEx.retries + 1 }]
           else [])) :=
  perm_failure_rejects_and_embed_retries cfgEx stPermEx jobEx [] permErrEx 0
    100 1000 estEx dataEx [] permErrEx 0 rfl (by decide) rfl

/-- C2 (counterexample): with rate limit 1000 ms, from a state whose first
send fails permanently, the first two transport invocations both occur at
clock 5000 — zero elapsed time, below the configured minimum interval —
refuting the unconditional claim that consecutive invocations are at least
the interval apart. -/
theorem rate_gap_counterexample :
    (drainRun cfgEx { emailQueue := [jobEx, jobEx2], lastEmailTime := 0, clock := 5000 }
        [SendResult.err permErrEx 0, SendResult.ok mId2 0]).2.map
        (fun it => it.invocation) = [5000, 5000] ∧
    5000 - 5000 < cfgEx.rateLimit := by
  decide

/-- C2 (amended): an invocation that follows a successful send occurs at
least the configured interval after the previous invocation (part_002's
interval is `SMTP_RATE_LIMIT` milliseconds; the part_001 embedded variant
gates each send at `60000 / RATE_LIMIT` past the last successful send);
invocations following a failed send may occur sooner. -/
theorem rate_gate_consecutive
    (cfg : QueueConfig) (st : DrainState) (m : String) (dur : Nat)
    (r₂ : SendResult) (it₁ it₂ : IterResult)
    (rl rd : Nat) (est : EmbedState) (res : SendResult) (out : EmbedState × Nat)
    (h₁ : drainStep cfg st (SendResult.ok m dur) = some it₁)
    (h₂ : drainStep cfg it₁.state r₂ = some it₂)
    (hcl : est.lastEmailTime ≤ est.clock)
    (hout : embedStep rl rd est res = some out) :
    it₁.invocation + cfg.rateLimit ≤ it₂.invocation ∧
    est.lastEmailTime + 60000 / rl ≤ out.2 := by
  refine ⟨?_, embedStep_invocation_lb rl rd est res out hcl hout⟩
  rcases hq : st.emailQueue with _ | ⟨job, rest⟩
  · simp [drainStep, hq] at h₁
  · simp only [drainStep, hq, Option.some.injEq] at h₁
    subst h₁
    have hlb := drainStep_invocation_lb cfg _ r₂ it₂ (le_refl _) h₂
    dsimp only at hlb ⊢
    omega

/-- The amended C2 at a concrete input: two successful sends from a fresh
state with rate limit 1000 ms are invoked at 1000 and 2005. -/
theorem rate_gate_consecutive_witness :
    itW1.invocation + cfgEx.rateLimit ≤ itW2.invocation ∧
    estEx.lastEmailTime + 60000 / 100 ≤ outW.2 :=
  rate_gate_consecutive cfgEx stOkEx mId1 5 (SendResult.ok mId2 0) itW1 itW2
    100 1000 estEx (SendResult.ok mId1 0) outW (by decide) (by decide)
    (by decide) (by decide)

/-- C3: a rate-limited failure (SMTP 421 or a 421 / rate message) puts the
same, unmodified job back at the front of the queue, settles nothing, keeps
`lastEmailTime`, and suspends the loop for the retry delay before the next
iteration. -/
theorem rate_limited_failure_requeues_front
    (cfg : QueueConfig) (st : DrainState) (job : EmailJob)
    (rest : List EmailJob) (e : SendError) (dur : Nat)
    (hq : st.emailQueue = job :: rest) (he : isRateLimitError e = true) :
    ∃ it, drainStep cfg st (SendResult.err e dur) = some it ∧
      it.state.emailQueue = job :: rest ∧
      it.settlement = none ∧
      it.state.lastEmailTime = st.lastEmailTime ∧
      it.state.clock = it.invocation + dur + cfg.retryDelay :=
  ⟨_, drainStep_rate_err cfg st job rest e dur hq he, rfl, rfl, rfl, rfl⟩

/-- C3 at a concrete input: a 421 failure requeues the single job at the
front with nothing settled. -/
theorem rate_limited_failure_requeues_front_witness :
    ∃ it, drainStep cfgEx stRateEx (SendResult.err err421Ex 2) = some it ∧
      it.state.emailQueue = [jobEx] ∧
      it.settlement = none ∧
      it.state.lastEmailTime = stRateEx.lastEmailTime ∧
      it.state.clock = it.invocation + 2 + cfgEx.retryDelay :=
  rate_limited_failure_requeues_front cfgEx stRateEx jobEx [] err421Ex 2 rfl
    (by decide)

/-- C8: a failing send attempt — rate-limited or permanent — leaves
`lastEmailTime` unchanged, while a successful send sets it to the
completion time of the transport call; the gate therefore measures time
since the last successful send. -/
theorem lastEmailTime_updated_only_on_success
    (cfg : QueueConfig) (st : DrainState) (e : SendError) (m : String)
    (dur : Nat) (it itOk : IterResult)
    (herr : drainStep cfg st (SendResult.err e dur) = some it)
    (hok : drainStep cfg st (SendResult.ok m dur) = some itOk) :
    it.state.lastEmailTime = st.lastEmailTime ∧
    itOk.state.lastEmailTime = itOk.invocation + dur := by
  rcases hq : st.emailQueue with _ | ⟨job, rest⟩
  · simp [drainStep, hq] at herr
  · constructor
    · rcases hrl : isRateLimitError e with _ | _
      · rw [drainStep_perm_err cfg st job rest e dur hq hrl] at herr
        obtain rfl := Option.some.inj herr
        rfl
      · rw [drainStep_rate_err cfg st job rest e dur hq hrl] at herr
        obtain rfl := Option.some.inj herr
        rfl
    · simp only [drainStep, hq, Option.some.injEq] at hok
      subst hok
      rfl

/-- C8 at a concrete input: a permanent failure keeps `lastEmailTime` at 0
while a success sets it to the completion time 5000. -/
theorem lastEmailTime_updated_only_on_success_witness :
    itPermEx.state.lastEmailTime = stPermEx.lastEmailTime ∧
    itOkEx.state.lastEmailTime = itOkEx.invocation + 0 :=
  lastEmailTime_updated_only_on_success cfgEx stPermEx permErrEx mId1 0
    itPermEx itOkEx (by decide) (by decide)

/-- C10: against a transport that persistently fails with a rate-limited
error, any number of drain iterations leaves the queue exactly as it was
and settles nothing — the retry bound never applies to rate-limited
failures and the loop never terminates while such a job is at the front. -/
theorem persistent_rate_error_loops_forever
    (cfg : QueueConfig) (e : SendError) (dur : Nat) (st : DrainState)
    (he : isRateLimitError e = true) :
    (∀ n, (drainRepeat cfg e dur n st).emailQueue = st.emailQueue) ∧
    (∀ n it, it ∈ (drainRun cfg st (List.replicate n (SendResult.err e dur))).2 →
        it.settlement = none) :=
  ⟨fun n => drainRepeat_queue_eq cfg e dur he n st,
   fun n it hm => drainRun_rate_settlements cfg e dur he n st it hm⟩

/-- C10 at a concrete input: five persistently-421 iterations leave the
one-job queue unchanged. -/
theorem persistent_rate_error_loops_forever_witness :
    (drainRepeat cfgEx err421Ex 0 5 stRateEx).emailQueue = stRateEx.emailQueue :=
  (persistent_rate_error_loops_forever cfgEx err421Ex 0 stRateEx (by decide)).1 5

/-! ### Invariant proofs for the interleaving model -/

/-- Nodup and an upper bound transfer backwards along a permutation. -/
theorem nodup_bound_of_perm (L L' : List Nat) (n : Nat)
    (hperm : List.Perm L' L) (hnd : L.Nodup) (hbd : ∀ i ∈ L, i < n) :
    L'.Nodup ∧ ∀ i ∈ L', i < n :=
  ⟨hperm.symm.nodup hnd, fun i hi => hbd i (hperm.subset hi)⟩

/-- Appending one fresh id keeps the ids distinct and bounded by the
incremented counter. -/
theorem nodup_bound_snoc_fresh (A B : List Nat) (n : Nat)
    (hnd : (A ++ B).Nodup) (hbd : ∀ i ∈ A ++ B, i < n) :
    (A ++ n :: B).Nodup ∧ ∀ i ∈ A ++ n :: B, i < n + 1 := by
  have hperm : List.Perm (A ++ n :: B) (n :: (A ++ B)) := List.perm_middle
  constructor
  · refine hperm.symm.nodup (List.nodup_cons.mpr ⟨?_, hnd⟩)
    exact fun hm => absurd (hbd n hm) (lt_irrefl n)
  · intro i hi
    rcases List.mem_cons.mp (hperm.subset hi) with rfl | hm
    · exact Nat.lt_succ_self i
    · exact Nat.lt_succ_of_lt (hbd i hm)

/-- The invariant holds initially. -/
theorem inv_init : Inv initState := by
  refine ⟨by simp [initState], by simp [initState], by simp [initState], ?_, ?_⟩
  · simp [jobIds, inFlightIds, optIds, initState]
  · simp [jobIds, inFlightIds, optIds, initState]

/-- The enqueue function preserves the invariant. -/
theorem inv_queueEmail (m : MailOptions) (t : Nat) (s : SysState)
    (hInv : Inv s) : Inv (queueEmail m t s) := by
  obtain ⟨q, p, al, fl, stl, nid, lastT⟩ := s
  obtain ⟨h1, h2, h3, h4, h5⟩ := hInv
  simp only [jobIds, inFlightIds] at h4 h5
  have hids := nodup_bound_snoc_fresh (q.map fun j => j.id)
    (optIds fl ++ stl.map fun p => p.1) nid h4 h5
  simp only [queueEmail]
  split
  · exact ⟨h1, h2, h3,
      by simpa [jobIds, inFlightIds] using hids.1,
      by simpa [jobIds, inFlightIds] using hids.2⟩
  case isFalse hp =>
    simp only [processTrigger]
    split
    · exact ⟨h1, h2, h3,
        by simpa [jobIds, inFlightIds] using hids.1,
        by simpa [jobIds, inFlightIds] using hids.2⟩
    · have hal : al = 0 := by
        have h1' : al ≤ 1 := h1
        have hne : ¬ al = 1 := fun h₁ => hp (h2.mpr h₁)
        omega
      subst hal
      refine ⟨Nat.le_refl 1, by simp, fun _ => rfl,
        by simpa [jobIds, inFlightIds] using hids.1,
        by simpa [jobIds, inFlightIds] using hids.2⟩

/-- Every enabled transition preserves the invariant. -/
theorem inv_step (e : Ev) (s s' : SysState) (hInv : Inv s)
    (h : step e s = some s') : Inv s' := by
  cases e with
  | enq m t =>
    simp only [step, Option.some.injEq] at h
    subst h
    exact inv_queueEmail m t s hInv
  | dequeue =>
    obtain ⟨q, p, al, fl, stl, nid, lastT⟩ := s
    obtain ⟨h1, h2, h3, h4, h5⟩ := hInv
    simp only [jobIds, inFlightIds] at h4 h5
    cases fl with
    | some x => simp [step] at h
    | none =>
      cases q with
      | nil => simp [step] at h
      | cons job rest =>
        simp only [step] at h
        split at h
        next hp =>
          obtain rfl := Option.some.inj h
          have hperm : List.Perm
              ((rest.map fun j => j.id)
                ++ (optIds (some job) ++ stl.map fun pr => pr.1))
              (((job :: rest).map fun j => j.id)
                ++ (optIds none ++ stl.map fun pr => pr.1)) := by
            simp only [optIds, List.map_cons, List.nil_append,
              List.singleton_append, List.cons_append]
            exact List.perm_middle
          have hids := nodup_bound_of_perm _ _ nid hperm h4 h5
          exact ⟨h1, h2, fun _ => hp,
            by simpa [jobIds, inFlightIds] using hids.1,
            by simpa [jobIds, inFlightIds] using hids.2⟩
        next hp => simp at h
  | sendOk t' =>
    obtain ⟨q, p, al, fl, stl, nid, lastT⟩ := s
    obtain ⟨h1, h2, h3, h4, h5⟩ := hInv
    simp only [jobIds, inFlightIds] at h4 h5
    cases fl with
    | none => simp [step] at h
    | some x =>
      simp only [step, Option.some.injEq] at h
      subst h
      have hperm : List.Perm
          ((q.map fun j => j.id)
            ++ (optIds none ++ (stl ++ [(x.id, true)]).map fun pr => pr.1))
          ((q.map fun j => j.id)
            ++ (optIds (some x) ++ stl.map fun pr => pr.1)) := by
        simp only [optIds, List.nil_append, List.map_append, List.map_cons,
          List.map_nil, List.singleton_append]
        exact List.Perm.append_left _ (List.perm_append_singleton _ _)
      have hids := nodup_bound_of_perm _ _ nid hperm h4 h5
      refine ⟨h1, h2, ?_,
        by simpa [jobIds, inFlightIds] using hids.1,
        by simpa [jobIds, inFlightIds] using hids.2⟩
      intro hs
      simp at hs
  | sendRateErr e' =>
    obtain ⟨q, p, al, fl, stl, nid, lastT⟩ := s
    obtain ⟨h1, h2, h3, h4, h5⟩ := hInv
    simp only [jobIds, inFlightIds] at h4 h5
    cases fl with
    | none => simp [step] at h
    | some x =>
      simp only [step] at h
      split at h
      next hrl =>
        obtain rfl := Option.some.inj h
        have hperm : List.Perm
            (((x :: q).map fun j => j.id)
              ++ (optIds none ++ stl.map fun pr => pr.1))
            ((q.map fun j => j.id)
              ++ (optIds (some x) ++ stl.map fun pr => pr.1)) := by
          simp only [optIds, List.map_cons, List.nil_append,
            List.singleton_append, List.cons_append]
          exact List.perm_middle.symm
        have hids := nodup_bound_of_perm _ _ nid hperm h4 h5
        refine ⟨h1, h2, ?_,
          by simpa [jobIds, inFlightIds] using hids.1,
          by simpa [jobIds, inFlightIds] using hids.2⟩
        intro hs
        simp at hs
      next hrl => simp at h
  | sendPermErr e' =>
    obtain ⟨q, p, al, fl, stl, nid, lastT⟩ := s
    obtain ⟨h1, h2, h3, h4, h5⟩ := hInv
    simp only [jobIds, inFlightIds] at h4 h5
    cases fl with
    | none => simp [step] at h
    | some x =>
      simp only [step] at h
      split at h
      next hrl => simp at h
      next hrl =>
        obtain rfl := Option.some.inj h
        have hperm : List.Perm
            ((q.map fun j => j.id)
              ++ (optIds none ++ (stl ++ [(x.id, false)]).map fun pr => pr.1))
            ((q.map fun j => j.id)
              ++ (optIds (some x) ++ stl.map fun pr => pr.1)) := by
          simp only [optIds, List.nil_append, List.map_append, List.map_cons,
            List.map_nil, List.singleton_append]
          exact List.Perm.append_left _ (List.perm_append_singleton _ _)
        have hids := nodup_bound_of_perm _ _ nid hperm h4 h5
        refine ⟨h1, h2, ?_,
          by simpa [jobIds, inFlightIds] using hids.1,
          by simpa [jobIds, inFlightIds] using hids.2⟩
        intro hs
        simp at hs
  | finish =>
    obtain ⟨q, p, al, fl, stl, nid, lastT⟩ := s
    obtain ⟨h1, h2, h3, h4, h5⟩ := hInv
    simp only [jobIds, inFlightIds] at h4 h5
    cases fl with
    | some x => simp [step] at h
    | none =>
      simp only [step] at h
      split at h
      next hc =>
        obtain rfl := Option.some.inj h
        simp only [Bool.and_eq_true] at hc
        obtain ⟨⟨hp, hqe⟩, -⟩ := hc
        have hal : al = 1 := h2.mp hp
        subst hal
        refine ⟨?_, ?_, ?_,
          by simpa [jobIds, inFlightIds] using h4,
          by simpa [jobIds, inFlightIds] using h5⟩
        · show 1 - 1 ≤ 1
          decide
        · show false = true ↔ 1 - 1 = 1
          decide
        · intro hs
          simp at hs
      next hc => simp at h

/-- Any state reached from the initial state by enabled events satisfies
the invariant. -/
theorem inv_run : ∀ (evs : List Ev) (s₀ s : SysState),
    Inv s₀ → run s₀ evs = some s → Inv s := by
  intro evs
  induction evs with
  | nil =>
    intro s₀ s h hr
    rw [run] at hr
    obtain rfl := Option.some.inj hr
    exact h
  | cons e es ih =>
    intro s₀ s h hr
    rw [run] at hr
    cases hstep : step e s₀ with
    | none => rw [hstep] at hr; exact absurd hr (by simp)
    | some s₁ =>
      rw [hstep] at hr
      exact ih s₁ s (inv_step e s₀ s₁ h hstep) hr

/-! ### Concrete runs of the interleaving model -/

/-- The job created by the first enqueue from the initial state. -/
def jobW : EmailJob := { id := 0, mailOptions := mailEx, timestamp := 0 }

/-- State after one enqueue from idle: drain loop started. -/
def sW : SysState :=
  { emailQueue := [jobW], isProcessingQueue := true, activeLoops := 1,
    inFlight := none, settled := [], nextId := 1, lastEmailTime := 0 }

/-- State after the drain loop has popped the only job: it is in flight and
no longer queued. -/
def sDq : SysState :=
  { emailQueue := [], isProcessingQueue := true, activeLoops := 1,
    inFlight := some jobW, settled := [], nextId := 1, lastEmailTime := 0 }

/-- State after the send resolved and the loop finished: idle, one
settlement recorded. -/
def sFin : SysState :=
  { emailQueue := [], isProcessingQueue := false, activeLoops := 0,
    inFlight := none, settled := [(0, true)], nextId := 1, lastEmailTime := 42 }

/-! ### Claim theorems: queue/drain-loop invariants and status -/

/-- C4: in every reachable state at most one drain-loop instance is active;
an enqueue performed while the busy flag is set does not change the number
of active loops; `processEmailQueue` invoked while already processing
returns the state unchanged; and the `finish` transition (queue empty)
clears the busy flag. -/
theorem single_drain_loop_instance
    (evs : List Ev) (s s' : SysState) (m : MailOptions) (t : Nat)
    (h : run initState evs = some s) :
    s.activeLoops ≤ 1 ∧
    (s.isProcessingQueue = true →
      (queueEmail m t s).activeLoops = s.activeLoops) ∧
    (s.isProcessingQueue = true → processTrigger s = s) ∧
    (step Ev.finish s = some s' → s'.isProcessingQueue = false) := by
  have hInv := inv_run evs initState s inv_init h
  refine ⟨hInv.1, ?_, ?_, ?_⟩
  · intro hp
    simp [queueEmail, hp]
  · intro hp
    simp [processTrigger, hp]
  · intro hstep
    simp only [step] at hstep
    split at hstep
    next => obtain rfl := Option.some.inj hstep; rfl
    next => simp at hstep

/-- C4 at a concrete input: the state reached by one enqueue has one active
loop, and further triggers are no-ops. -/
theorem single_drain_loop_instance_witness :
    sW.activeLoops ≤ 1 ∧
    (sW.isProcessingQueue = true →
      (queueEmail mailEx 1 sW).activeLoops = sW.activeLoops) ∧
    (sW.isProcessingQueue = true → processTrigger sW = sW) ∧
    (step Ev.finish sW = some sW → sW.isProcessingQueue = false) :=
  single_drain_loop_instance [Ev.enq mailEx 0] sW sW mailEx 1 (by decide)

/-- C6: the `/queue-status` response reports exactly the current queue
length, busy flag, `lastEmailTime` and configured rate limit, and the job
currently in flight (already removed by `shift()`) is not among the queued
jobs it counts. -/
theorem queue_status_reports_pending
    (rl : Nat) (evs : List Ev) (s : SysState)
    (h : run initState evs = some s) :
    queueStatusHandler rl s =
      { queueLength := s.emailQueue.length,
        isProcessing := s.isProcessingQueue,
        lastEmailTime := s.lastEmailTime,
        rateLimitMs := rl } ∧
    (∀ j, s.inFlight = some j → j.id ∉ s.emailQueue.map fun jb => jb.id) := by
  have hInv := inv_run evs initState s inv_init h
  obtain ⟨-, -, -, h4, -⟩ := hInv
  refine ⟨rfl, ?_⟩
  intro j hj hmem
  rw [jobIds, inFlightIds, hj] at h4
  simp only [optIds, List.singleton_append] at h4
  rcases List.nodup_append.mp h4 with ⟨-, -, hdisj⟩
  exact hdisj hmem (List.mem_cons_self _ _)

/-- C6 at a concrete input: with the only job in flight, the status reports
a queue length of zero and the in-flight job is not counted. -/
theorem queue_status_reports_pending_witness :
    queueStatusHandler 1000 sDq =
      { queueLength := sDq.emailQueue.length,
        isProcessing := sDq.isProcessingQueue,
        lastEmailTime := sDq.lastEmailTime,
        rateLimitMs := 1000 } ∧
    (∀ j, sDq.inFlight = some j → j.id ∉ sDq.emailQueue.map fun jb => jb.id) :=
  queue_status_reports_pending 1000 [Ev.enq mailEx 0, Ev.dequeue] sDq (by decide)

/-- C9: in every reachable state the settlement history contains each job
id at most once — a handle is resolved or rejected at most once and never
both — and a rate-limited requeue settles nothing, leaving the handle
pending. -/
theorem handle_settled_at_most_once
    (evs : List Ev) (s s' : SysState) (e : SendError)
    (h : run initState evs = some s) :
    (s.settled.map fun pr => pr.1).Nodup ∧
    (step (Ev.sendRateErr e) s = some s' → s'.settled = s.settled) := by
  have hInv := inv_run evs initState s inv_init h
  obtain ⟨-, -, -, h4, -⟩ := hInv
  constructor
  · rw [jobIds] at h4
    rcases List.nodup_append.mp h4 with ⟨-, h4', -⟩
    rcases List.nodup_append.mp h4' with ⟨-, hC, -⟩
    exact hC
  · intro hstep
    cases hf : s.inFlight with
    | none => simp [step, hf] at hstep
    | some x =>
      simp only [step, hf] at hstep
      split at hstep
      next => obtain rfl := Option.some.inj hstep; rfl
      next => simp at hstep

/-- C9 at a concrete input: after enqueue, dequeue, successful send and
loop finish, the settlement history is the single entry for job 0. -/
theorem handle_settled_at_most_once_witness :
    (sFin.settled.map fun pr => pr.1).Nodup ∧
    (step (Ev.sendRateErr err421Ex) sFin = some sFin →
      sFin.settled = sFin.settled) :=
  handle_settled_at_most_once
    [Ev.enq mailEx 0, Ev.dequeue, Ev.sendOk 42, Ev.finish] sFin sFin err421Ex
    (by decide)

/-! ### Claim theorems: HTTP handlers -/

/-- Default sender used in witnesses. -/
def defaultFromEx : String := "noreply@example.com"

/-- A sample subject value. -/
def subjEx : JSVal := JSVal.str ("hello subject")

/-- A sample text body value. -/
def textEx : JSVal := JSVal.str ("body text")

/-- A sample recipient value. -/
def toEx : JSVal := JSVal.str ("user@example.com")

/-- A request body missing the `to` field. -/
def bodyInvalidEx : SendBody :=
  { toField := JSVal.absent, subject := subjEx, text := textEx,
    html := JSVal.absent, fromField := JSVal.absent }

/-- A request body with all required fields present. -/
def bodyValidEx : SendBody :=
  { toField := toEx, subject := subjEx, text := textEx,
    html := JSVal.absent, fromField := JSVal.absent }

/-- A sample dispatch failure message. -/
def failMsgEx : String := "connect ECONNREFUSED"

/-- A dispatch function that always fails. -/
def failDispatchEx : MailOptions → DispatchOutcome :=
  fun _ => DispatchOutcome.fail failMsgEx none

/-- C5: a `POST /send-email` body with falsy `to`, falsy `subject`, or both
`text` and `html` falsy gets a 400 reply and nothing is dispatched (no send
or enqueue happens); when all required fields are present and the dispatch
rejects, the reply is 500. -/
theorem send_email_validation_and_dispatch
    (defaultFrom : String) (b : SendBody)
    (dispatch : MailOptions → DispatchOutcome) (d : String) (c : Option Nat) :
    ((b.toField.truthy = false ∨ b.subject.truthy = false ∨
        (b.text.truthy = false ∧ b.html.truthy = false)) →
      sendEmailHandler defaultFrom b dispatch =
        { status := 400, dispatched := none }) ∧
    (b.toField.truthy = true → b.subject.truthy = true →
      (b.text.truthy = true ∨ b.html.truthy = true) →
      dispatch (buildMailOptions defaultFrom b) = DispatchOutcome.fail d c →
      (sendEmailHandler defaultFrom b dispatch).status = 500) := by
  constructor
  · intro hmiss
    rcases hmiss with h | h | ⟨ht, hh⟩
    · simp [sendEmailHandler, h]
    · simp [sendEmailHandler, h]
    · simp [sendEmailHandler, ht, hh]
  · intro hto hsub hbody hfail
    rcases hbody with ht | hh
    · simp [sendEmailHandler, hto, hsub, ht, hfail]
    · simp [sendEmailHandler, hto, hsub, hh, hfail]

/-- C5 at concrete inputs: a body without `to` yields 400 with nothing
dispatched; a complete body whose dispatch rejects yields 500. -/
theorem send_email_validation_and_dispatch_witness :
    sendEmailHandler defaultFromEx bodyInvalidEx failDispatchEx =
      { status := 400, dispatched := none } ∧
    (sendEmailHandler defaultFromEx bodyValidEx failDispatchEx).status = 500 :=
  ⟨(send_email_validation_and_dispatch defaultFromEx bodyInvalidEx
      failDispatchEx failMsgEx none).1 (Or.inl (by decide)),
   (send_email_validation_and_dispatch defaultFromEx bodyValidEx
      failDispatchEx failMsgEx none).2 (by decide) (by decide)
      (Or.inl (by decide)) (by decide)⟩

/-- C7: a valid bulk request with a non-empty recipients list is answered
with per-recipient results and errors such that `totalSent` and
`totalErrors` are the lengths of the two lists, they sum to the number of
recipients, and the recipient indices across the two lists are exactly
`0, …, n-1`, each appearing once. -/
theorem bulk_email_partitions_recipients
    (recipients : List String) (subject text html : JSVal)
    (send : Nat → String → DispatchOutcome) (resp : BulkResponse)
    (hne : recipients.isEmpty = false)
    (hsub : subject.truthy = true)
    (hbody : text.truthy = true ∨ html.truthy = true)
    (hval : sendBulkHandler (some recipients) subject text html send =
      Except.ok resp) :
    resp.totalSent = resp.results.length ∧
    resp.totalErrors = resp.errors.length ∧
    resp.totalSent + resp.totalErrors = recipients.length ∧
    List.Perm ((resp.results ++ resp.errors).map fun o => o.index)
      (List.range recipients.length) := by
  have hred : sendBulkHandler (some recipients) subject text html send =
      Except.ok
        { totalSent := ((recipients.enum.map (bulkOutcome send)).filter
            (fun o => o.success)).length,
          totalErrors := ((recipients.enum.map (bulkOutcome send)).filter
            (fun o => !o.success)).length,
          results := (recipients.enum.map (bulkOutcome send)).filter
            (fun o => o.success),
          errors := (recipients.enum.map (bulkOutcome send)).filter
            (fun o => !o.success) } := by
    rcases hbody with ht | hh
    · simp [sendBulkHandler, hne, hsub, ht]
    · simp [sendBulkHandler, hne, hsub, hh]
  rw [hred] at hval
  obtain rfl : _ = resp := by
    have := hval
    injection this
  have hp := List.filter_append_perm (fun o => o.success)
    (recipients.enum.map (bulkOutcome send))
  refine ⟨rfl, rfl, ?_, ?_⟩
  · have hlen := hp.length_eq
    rw [List.length_append] at hlen
    show _ + _ = recipients.length
    rw [hlen, List.length_map, List.enum_length]
  · have hm := hp.map (fun o => o.index)
    have hcomp : (recipients.enum.map (bulkOutcome send)).map
        (fun o => o.index) = recipients.enum.map Prod.fst := by
      rw [List.map_map]
      apply List.map_congr_left
      intro p _
      show (bulkOutcome send p).index = p.1
      cases hs : send p.1 p.2 <;> simp [bulkOutcome, hs]
    rw [hcomp, List.enum_map_fst] at hm
    exact hm

/-- A concrete outcome function for the bulk witness: even indices succeed,
odd ones fail. -/
def sendAltEx : Nat → String → DispatchOutcome :=
  fun i _ => if i % 2 == 0 then DispatchOutcome.ok mId1
             else DispatchOutcome.fail failMsgEx none

/-- Three sample recipients. -/
def recipientsEx : List String :=
  [toEx.asString, defaultFromEx, failMsgEx]

/-- The bulk response produced for `recipientsEx` under `sendAltEx`. -/
def bulkRespEx : BulkResponse :=
  { totalSent := 2, totalErrors := 1,
    results :=
      [ { index := 0, recipient := toEx.asString, success := true,
          messageId := some mId1, error := none },
        { index := 2, recipient := failMsgEx, success := true,
          messageId := some mId1, error := none } ],
    errors :=
      [ { index := 1, recipient := defaultFromEx, success := false,
          messageId := none, error := some failMsgEx } ] }

/-- C7 at a concrete input: three recipients, two succeed and one fails;
the counts add up and indices 0, 1, 2 each appear once. -/
theorem bulk_email_partitions_recipients_witness :
    (bulkRespEx.totalSent = bulkRespEx.results.length ∧
     bulkRespEx.totalErrors = bulkRespEx.errors.length ∧
     bulkRespEx.totalSent + bulkRespEx.totalErrors = recipientsEx.length ∧
     List.Perm ((bulkRespEx.results ++ bulkRespEx.errors).map fun o => o.index)
       (List.range recipientsEx.length)) :=
  bulk_email_partitions_recipients recipientsEx subjEx textEx JSVal.absent
    sendAltEx bulkRespEx (by decide) (by decide) (Or.inl (by decide))
    (by rfl)

end SmtpServer
